import Mathlib

/-!
Verification of the moving-window vortex-identification reductions of pivpy
(src/pivpy/compute_funcs.py): the functions Γ1_moving_window_function and
Γ2_moving_window_function.

Embedding choices:
* A numpy 2-D float array of shape r x c is a function Fin r → Fin c → Option ℝ.
  A cell holding IEEE NaN is modelled as none; a finite real value a as some a.
* The elementwise numpy operations (np.add, np.subtract, np.multiply,
  np.square, np.sqrt, np.divide) become NaN-propagating operations on
  Option ℝ.  np.sqrt of a negative argument yields NaN; np.divide yields NaN
  on 0/0 (and ±inf on x/0 with x ≠ 0, a branch that is unreachable in both Γ
  functions: the numerator PMx*v - PMy*u vanishes whenever the denominator
  |PM|*|U| does, because |PM| = 0 forces PMx = PMy = 0 and |U| = 0 forces
  u = v = 0; the lemma num_zero_of_den_zero below proves this, so modelling
  the zero-denominator case as NaN is faithful on all reachable inputs).
* np.nanmean is the sum of the defined (non-NaN) entries divided by their
  count, and NaN when no entry is defined.
* Python indexing fWin[n, n] raises IndexError when n is out of range; the
  top-level functions therefore return Option ℝ, with none modelling the
  raised exception and some g a normal return of the scalar g.  (A raised
  numpy floating-point warning has no observable effect modelled here; the
  with np.errstate block only suppresses warnings, it does not change any
  computed value.)
-/

namespace PivPy

/-- A numpy float value: none models IEEE NaN, some a a finite real. -/
abbrev NVal := Option ℝ

/-- A numpy 2-D array of shape r x c holding float values. -/
def Grid (r c : ℕ) := Fin r → Fin c → NVal

/-- Elementwise np.add on NaN-able values: NaN propagates. -/
def nadd (a b : NVal) : NVal := a.bind fun p => b.map fun q => p + q

/-- Elementwise np.subtract on NaN-able values: NaN propagates. -/
def nsub (a b : NVal) : NVal := a.bind fun p => b.map fun q => p - q

/-- Elementwise np.multiply on NaN-able values: NaN propagates. -/
def nmul (a b : NVal) : NVal := a.bind fun p => b.map fun q => p * q

/-- Elementwise np.square. -/
def nsq (a : NVal) : NVal := a.map fun p => p * p

/-- Elementwise np.sqrt: NaN on NaN and on negative arguments. -/
noncomputable def nsqrt (a : NVal) : NVal :=
  a.bind fun p => if p < 0 then none else some (Real.sqrt p)

/-- Elementwise np.divide: NaN propagates and a zero divisor yields NaN
(0/0 in numpy; the x/0 ↦ ±inf branch is unreachable at both call sites,
see num_zero_of_den_zero). -/
noncomputable def ndiv (a b : NVal) : NVal :=
  a.bind fun p => b.bind fun q => if q = 0 then none else some (p / q)

/-- List of the defined (non-NaN) entries of a grid, row-major as numpy
flattens an array. -/
def definedVals {r c : ℕ} (g : Grid r c) : List ℝ :=
  (List.finRange r).flatMap fun i => (List.finRange c).filterMap fun j => g i j

/-- Model of np.nanmean over a 2-D array: mean of the defined entries,
NaN when every entry is NaN. -/
noncomputable def nanmean {r c : ℕ} (g : Grid r c) : NVal :=
  if definedVals g = [] then none
  else some ((definedVals g).sum / (definedVals g).length)

/-- Per-cell expression of the one-liner on line 65 of compute_funcs.py,
with xp = float(x[n,n]), yp = float(y[n,n]) and xm, ym, um, vm the cell's
entries of x, y, u, v:
np.divide(np.subtract(np.multiply(PMx,v), np.multiply(PMy,u)),
np.multiply(np.sqrt(np.add(np.square(PMx), np.square(PMy))),
np.sqrt(np.add(np.square(u), np.square(v))))) where PMx = np.subtract(x, xp)
and PMy = np.subtract(y, yp); all the numpy operations are elementwise, so
the array of line 65 is this expression applied cell by cell. -/
noncomputable def cellTerm (xp yp xm ym um vm : NVal) : NVal :=
  ndiv
    (nsub (nmul (nsub xm xp) vm) (nmul (nsub ym yp) um))
    (nmul
      (nsqrt (nadd (nsq (nsub xm xp)) (nsq (nsub ym yp))))
      (nsqrt (nadd (nsq um) (nsq vm))))

/-- The array whose np.nanmean is taken on line 65 of compute_funcs.py:
cellTerm evaluated cell by cell, with the center read at index (P, Q). -/
noncomputable def Γ1term {r c : ℕ} (x y u v : Grid r c) (P : Fin r) (Q : Fin c) :
    Grid r c := fun i j =>
  cellTerm (x P Q) (y P Q) (x i j) (y i j) (u i j) (v i j)

/-- Model of Γ1_moving_window_function (compute_funcs.py lines 57-67): center
coordinates are read at index [n,n] (an out-of-range n raises IndexError,
modelled by none), then the one-liner nanmean of Γ1term is taken and the
final .fillna(0.0) replaces a NaN mean by 0.0. -/
noncomputable def Γ1_moving_window_function (r c : ℕ) (x y u v : Grid r c)
    (n : ℕ) : Option ℝ :=
  if h : n < r ∧ n < c then
    some ((nanmean (Γ1term x y u v ⟨n, h.1⟩ ⟨n, h.2⟩)).getD 0)
  else none

/-- The array whose np.nanmean is taken on line 137 of compute_funcs.py: the
same per-cell expression as in Γ1term but with the fluctuations
uDif = u - np.nanmean(u) and vDif = v - np.nanmean(v) (lines 131-132, a
scalar np.nanmean broadcast against the window) in place of u and v. -/
noncomputable def Γ2term {r c : ℕ} (x y u v : Grid r c) (P : Fin r) (Q : Fin c) :
    Grid r c := fun i j =>
  cellTerm (x P Q) (y P Q) (x i j) (y i j)
    (nsub (u i j) (nanmean u)) (nsub (v i j) (nanmean v))

/-- Model of Γ2_moving_window_function (compute_funcs.py lines 127-139). -/
noncomputable def Γ2_moving_window_function (r c : ℕ) (x y u v : Grid r c)
    (n : ℕ) : Option ℝ :=
  if h : n < r ∧ n < c then
    some ((nanmean (Γ2term x y u v ⟨n, h.1⟩ ⟨n, h.2⟩)).getD 0)
  else none

/-- Spec-side per-cell value, following the spec text (section 4.2, steps 2-4
and the exclusion rule of step 5): with P = (xp, yp) and cell M = (xm, ym)
carrying velocity (um, vm), the value sinθ_M =
(PMx*vm - PMy*um) / (|PM| * |U|) with PM = (xm - xp, ym - yp),
|PM| = sqrt(PMx^2 + PMy^2), |U| = sqrt(um^2 + vm^2); the cell counts as
undefined (none) when any input is NaN or |PM| = 0 or |U| = 0. -/
noncomputable def sinθ_cell (xp yp xm ym um vm : NVal) : NVal :=
  match xp, yp, xm, ym, um, vm with
  | some a, some b, some c, some d, some e, some f =>
    if Real.sqrt ((c - a) ^ 2 + (d - b) ^ 2) = 0 ∨
        Real.sqrt (e ^ 2 + f ^ 2) = 0 then none
    else some (((c - a) * f - (d - b) * e) /
      (Real.sqrt ((c - a) ^ 2 + (d - b) ^ 2) * Real.sqrt (e ^ 2 + f ^ 2)))
  | _, _, _, _, _, _ => none

/-- Spec-side list of the defined sinθ_M values of a window whose point P is
the cell at index (P, Q), row-major. -/
noncomputable def specVals {r c : ℕ} (x y u v : Grid r c) (P : Fin r)
    (Q : Fin c) : List ℝ :=
  (List.finRange r).flatMap fun i => (List.finRange c).filterMap fun j =>
    sinθ_cell (x P Q) (y P Q) (x i j) (y i j) (u i j) (v i j)

/-- Spec-side mean of a window variable, ignoring NaN entries (section 4.3
step 1: the convective velocity estimate). Undefined when every entry is
NaN. -/
noncomputable def specWindowMean {r c : ℕ} (g : Grid r c) : NVal :=
  if definedVals g = [] then none
  else some ((definedVals g).sum / (definedVals g).length)

/-- Spec-side fluctuation velocity component (section 4.3 step 2):
gDif[M] = g[M] - mean, undefined when g[M] is NaN or the window mean is
undefined. -/
noncomputable def specDif {r c : ℕ} (g : Grid r c) : Grid r c := fun i j =>
  match g i j, specWindowMean g with
  | some a, some m => some (a - m)
  | _, _ => none

/-- Elementwise velocity negation (u, v) ↦ (-u, -v); NaN cells stay NaN. -/
def negGrid {r c : ℕ} (g : Grid r c) : Grid r c :=
  fun i j => (g i j).map fun t => -t

/-- Elementwise addition of a constant to a window variable; NaN cells stay
NaN. -/
def addConstGrid {r c : ℕ} (g : Grid r c) (a : ℝ) : Grid r c :=
  fun i j => (g i j).map fun t => t + a

/-- Concrete 1 x 1 window whose only entry is 0 everywhere (coordinates and
velocities): the fully degenerate window. -/
def Z0 : Grid 1 1 := fun _ _ => some 0

/-- Concrete 1 x 1 window whose only entry is 1 everywhere. -/
def Z1 : Grid 1 1 := fun _ _ => some 1

/-- Concrete rectangular 2 x 3 grid of zeros, used to exercise the functions
on a window that is not square and not of shape (2n+1) x (2n+1). -/
def G23 : Grid 2 3 := fun _ _ => some 0

/-- Concrete 3 x 3 x-coordinates of a unit grid centered at (0, 0):
x = column index - 1. -/
def RX : Grid 3 3 := fun _ j => some ((j.val : ℝ) - 1)

/-- Concrete 3 x 3 y-coordinates of a unit grid centered at (0, 0):
y = row index - 1. -/
def RY : Grid 3 3 := fun i _ => some ((i.val : ℝ) - 1)

/-- Concrete 3 x 3 u-velocity of counterclockwise solid-body rotation:
u = -y. -/
def RU : Grid 3 3 := fun i _ => some (1 - (i.val : ℝ))

/-- Concrete 3 x 3 v-velocity of counterclockwise solid-body rotation:
v = x. -/
def RV : Grid 3 3 := fun _ j => some ((j.val : ℝ) - 1)

/-- Concrete 3 x 3 x-coordinates defined only at the cell (0,0) (value 1)
and at the center (value 0); every other cell is NaN-masked. -/
def Wx : Grid 3 3 := fun i j =>
  if i.val = 0 ∧ j.val = 0 then some 1
  else if i.val = 1 ∧ j.val = 1 then some 0 else none

/-- Concrete 3 x 3 y-coordinates defined only at the cell (0,0) and at the
center, both 0. -/
def Wy : Grid 3 3 := fun i j =>
  if i.val = 0 ∧ j.val = 0 then some 0
  else if i.val = 1 ∧ j.val = 1 then some 0 else none

/-- Concrete 3 x 3 u-velocity: 1 at the cell (0,0), 0 at the center, NaN
elsewhere. -/
def Wu : Grid 3 3 := fun i j =>
  if i.val = 0 ∧ j.val = 0 then some 1
  else if i.val = 1 ∧ j.val = 1 then some 0 else none

/-- Concrete 3 x 3 v-velocity: 0 at the cell (0,0) and at the center, NaN
elsewhere. -/
def Wv : Grid 3 3 := fun i j =>
  if i.val = 0 ∧ j.val = 0 then some 0
  else if i.val = 1 ∧ j.val = 1 then some 0 else none

/-- Concrete 3 x 3 u-velocity: 2 at the cell (0,0), 0 at the center, NaN
elsewhere; its NaN-ignoring window mean is 1, so its fluctuation is not
identically zero. -/
def W2u : Grid 3 3 := fun i j =>
  if i.val = 0 ∧ j.val = 0 then some 2
  else if i.val = 1 ∧ j.val = 1 then some 0 else none

/-- Explicit form of the fluctuation grid specDif W2u: the defined u entries
are 2 (at cell (0,0)) and 0 (at the center), their mean is 1, so the
fluctuations are 1 and -1. -/
def W2uD : Grid 3 3 := fun i j =>
  if i.val = 0 ∧ j.val = 0 then some 1
  else if i.val = 1 ∧ j.val = 1 then some (-1) else none

/-- Explicit form of the fluctuation grid specDif Wv: both defined v entries
are 0, their mean is 0, so both fluctuations are 0. -/
def WvD : Grid 3 3 := fun i j =>
  if i.val = 0 ∧ j.val = 0 then some 0
  else if i.val = 1 ∧ j.val = 1 then some 0 else none

/-- Justification that modelling a zero divisor as NaN is faithful: at both
call sites of np.divide the numerator vanishes whenever the (real-valued)
denominator does, so 0/0 ↦ NaN is the only zero-divisor case that occurs. -/
theorem num_zero_of_den_zero (a b p q : ℝ)
    (h : Real.sqrt (a * a + b * b) * Real.sqrt (p * p + q * q) = 0) :
    a * q - b * p = 0 := by
  rcases mul_eq_zero.1 h with h1 | h1
  · have h2 : a * a + b * b ≤ 0 := Real.sqrt_eq_zero'.1 h1
    have ha : a = 0 := by nlinarith [sq_nonneg a, sq_nonneg b]
    have hb : b = 0 := by nlinarith [sq_nonneg a, sq_nonneg b]
    simp [ha, hb]
  · have h2 : p * p + q * q ≤ 0 := Real.sqrt_eq_zero'.1 h1
    have hp : p = 0 := by nlinarith [sq_nonneg p, sq_nonneg q]
    have hq : q = 0 := by nlinarith [sq_nonneg p, sq_nonneg q]
    simp [hp, hq]

/-- Bridge between the code-side per-cell expression and the spec-side
per-cell value: the NaN-propagating numpy expression of line 65 computes
exactly the spec quantity sinθ_M, with exactly the cells named by the spec
(NaN inputs, |PM| = 0, |U| = 0) coming out undefined. -/
theorem cellTerm_eq_sinθ_cell (xp yp xm ym um vm : NVal) :
    cellTerm xp yp xm ym um vm = sinθ_cell xp yp xm ym um vm := by
  rcases xp with _ | a <;> rcases yp with _ | b <;> rcases xm with _ | p <;>
    rcases ym with _ | q <;> rcases um with _ | e <;> rcases vm with _ | f <;>
    try rfl
  have hA : ¬ ((p - a) * (p - a) + (q - b) * (q - b) < 0) := by
    nlinarith [mul_self_nonneg (p - a), mul_self_nonneg (q - b)]
  have hB : ¬ (e * e + f * f < 0) := by
    nlinarith [mul_self_nonneg e, mul_self_nonneg f]
  simp only [cellTerm, sinθ_cell, nsub, nmul, nadd, nsq, nsqrt, ndiv,
    Option.map_some', Option.some_bind, if_neg hA, if_neg hB]
  rw [show (p - a) * (p - a) + (q - b) * (q - b) = (p - a) ^ 2 + (q - b) ^ 2 by
        ring,
      show e * e + f * f = e ^ 2 + f ^ 2 by ring]
  simp only [mul_eq_zero]

/-- Membership in definedVals is exactly being the value of some defined
cell. -/
theorem mem_definedVals {r c : ℕ} {g : Grid r c} {t : ℝ} :
    t ∈ definedVals g ↔ ∃ i j, g i j = some t := by
  unfold definedVals
  simp only [List.mem_flatMap, List.mem_filterMap, List.mem_finRange,
    true_and]

/-- The defined entries of the Γ1 one-liner array are exactly the spec's
defined sinθ_M values, in the same row-major order. -/
theorem definedVals_Γ1term {r c : ℕ} (x y u v : Grid r c) (P : Fin r)
    (Q : Fin c) :
    definedVals (Γ1term x y u v P Q) = specVals x y u v P Q := by
  have hg : Γ1term x y u v P Q
      = fun i j => sinθ_cell (x P Q) (y P Q) (x i j) (y i j) (u i j) (v i j) :=
    funext fun i => funext fun j => cellTerm_eq_sinθ_cell _ _ _ _ _ _
  rw [definedVals, hg, specVals]

/-- The code-side fluctuation velocity u - np.nanmean(u) agrees cell by cell
with the spec-side fluctuation. -/
theorem nsub_nanmean_eq_specDif {r c : ℕ} (g : Grid r c) (i : Fin r)
    (j : Fin c) : nsub (g i j) (nanmean g) = specDif g i j := by
  unfold specDif specWindowMean nanmean
  rcases g i j with _ | a
  · by_cases hE : definedVals g = [] <;> simp [nsub, hE]
  · by_cases hE : definedVals g = [] <;> simp [nsub, hE]

/-- The defined entries of the Γ2 one-liner array are exactly the spec's
defined sinθ_M values computed from the fluctuation velocity. -/
theorem definedVals_Γ2term {r c : ℕ} (x y u v : Grid r c) (P : Fin r)
    (Q : Fin c) :
    definedVals (Γ2term x y u v P Q)
      = specVals x y (specDif u) (specDif v) P Q := by
  have hg : Γ2term x y u v P Q
      = fun i j => sinθ_cell (x P Q) (y P Q) (x i j) (y i j) (specDif u i j)
          (specDif v i j) := by
    funext i j
    rw [Γ2term, ← nsub_nanmean_eq_specDif u i j, ← nsub_nanmean_eq_specDif v i j]
    exact cellTerm_eq_sinθ_cell _ _ _ _ _ _
  rw [definedVals, hg, specVals]

/-- Refinement of Γ1: in bounds, the function returns the spec mean of the
defined sinθ_M values, with an empty list of defined values collapsing to
0.0. -/
theorem Γ1_eq_specMean (r c : ℕ) (x y u v : Grid r c) (n : ℕ) (h1 : n < r)
    (h2 : n < c) :
    Γ1_moving_window_function r c x y u v n
      = some (if specVals x y u v ⟨n, h1⟩ ⟨n, h2⟩ = [] then 0
          else (specVals x y u v ⟨n, h1⟩ ⟨n, h2⟩).sum
            / (specVals x y u v ⟨n, h1⟩ ⟨n, h2⟩).length) := by
  unfold Γ1_moving_window_function nanmean
  rw [dif_pos ⟨h1, h2⟩, definedVals_Γ1term]
  by_cases hE : specVals x y u v ⟨n, h1⟩ ⟨n, h2⟩ = []
  · rw [if_pos hE, if_pos hE]; rfl
  · rw [if_neg hE, if_neg hE]; rfl

/-- Refinement of Γ2: in bounds, the function returns the spec mean of the
defined fluctuation sinθ_M values, with the same empty-window fallback. -/
theorem Γ2_eq_specMean (r c : ℕ) (x y u v : Grid r c) (n : ℕ) (h1 : n < r)
    (h2 : n < c) :
    Γ2_moving_window_function r c x y u v n
      = some (if specVals x y (specDif u) (specDif v) ⟨n, h1⟩ ⟨n, h2⟩ = []
            then 0
          else (specVals x y (specDif u) (specDif v) ⟨n, h1⟩ ⟨n, h2⟩).sum
            / (specVals x y (specDif u) (specDif v) ⟨n, h1⟩ ⟨n, h2⟩).length) := by
  unfold Γ2_moving_window_function nanmean
  rw [dif_pos ⟨h1, h2⟩, definedVals_Γ2term]
  by_cases hE : specVals x y (specDif u) (specDif v) ⟨n, h1⟩ ⟨n, h2⟩ = []
  · rw [if_pos hE, if_pos hE]; rfl
  · rw [if_neg hE, if_neg hE]; rfl

/-- A grid with no defined entry has an empty definedVals list. -/
theorem definedVals_eq_nil {r c : ℕ} {g : Grid r c} (h : ∀ i j, g i j = none) :
    definedVals g = [] := by
  unfold definedVals
  simp [List.filterMap_eq_nil_iff, h]

/-- Claim C1: for a (2n+1) x (2n+1) window with center at index [n,n],
Γ1_moving_window_function returns the arithmetic mean, taken only over the
cells whose value is defined, of sinθ_M = (PMx*v - PMy*u) / (|PM| * |U|)
with PM = (x[M]-x[n,n], y[M]-y[n,n]); the undefined cells — NaN inputs,
|PM| = 0 (the center), |U| = 0 — are excluded from both the sum and the
count (stated via specVals, whose entries are exactly the defined sinθ_M
values and whose length is their count; the hypothesis requires at least
one defined cell, so that the mean exists). -/
theorem gamma1_returns_nan_ignoring_mean_of_sine (n : ℕ)
    (x y u v : Grid (2 * n + 1) (2 * n + 1))
    (h1 : n < 2 * n + 1) (h2 : n < 2 * n + 1)
    (hne : specVals x y u v ⟨n, h1⟩ ⟨n, h2⟩ ≠ []) :
    Γ1_moving_window_function (2 * n + 1) (2 * n + 1) x y u v n
      = some ((specVals x y u v ⟨n, h1⟩ ⟨n, h2⟩).sum
          / (specVals x y u v ⟨n, h1⟩ ⟨n, h2⟩).length) := by
  rw [Γ1_eq_specMean _ _ x y u v n h1 h2, if_neg hne]

/-- Claim C2: for a (2n+1) x (2n+1) window with center at index [n,n],
Γ2_moving_window_function computes the NaN-ignoring window means of u and v
(the convective velocity), subtracts them to get the fluctuations uDif and
vDif, and returns the NaN-ignoring mean of
(PMx*vDif - PMy*uDif) / (|PM| * |UDif|) — i.e. exactly the Γ1 spec value
with the fluctuation velocity (specDif u, specDif v) in place of (u, v). -/
theorem gamma2_returns_nan_ignoring_mean_of_fluctuation_sine (n : ℕ)
    (x y u v : Grid (2 * n + 1) (2 * n + 1))
    (h1 : n < 2 * n + 1) (h2 : n < 2 * n + 1)
    (hne : specVals x y (specDif u) (specDif v) ⟨n, h1⟩ ⟨n, h2⟩ ≠ []) :
    Γ2_moving_window_function (2 * n + 1) (2 * n + 1) x y u v n
      = some ((specVals x y (specDif u) (specDif v) ⟨n, h1⟩ ⟨n, h2⟩).sum
          / (specVals x y (specDif u) (specDif v) ⟨n, h1⟩ ⟨n, h2⟩).length) := by
  rw [Γ2_eq_specMean _ _ x y u v n h1 h2, if_neg hne]

/-- Spec value at the window center: since the cell M = P has PM = (0, 0),
its |PM| vanishes and the cell is always undefined. -/
theorem sinθ_cell_center (xp yp um vm : NVal) :
    sinθ_cell xp yp xp yp um vm = none := by
  rcases xp with _ | a <;> rcases yp with _ | b <;> rcases um with _ | e <;>
    rcases vm with _ | f <;> try rfl
  simp only [sinθ_cell]
  rw [if_pos]
  left
  simp [sub_self]

/-- Spec value at a stalled-flow cell: a cell with velocity (0, 0) has
|U| = 0 and is always undefined. -/
theorem sinθ_cell_stalled (xp yp xm ym : NVal) :
    sinθ_cell xp yp xm ym (some 0) (some 0) = none := by
  rcases xp with _ | a <;> rcases yp with _ | b <;> rcases xm with _ | p <;>
    rcases ym with _ | q <;> try rfl
  simp only [sinθ_cell]
  rw [if_pos]
  right
  simp

/-- Claim C3: a (2n+1) x (2n+1) window in which every per-cell value is
undefined (for example u = v = 0 at every cell, or every cell NaN-masked)
makes both Γ1_moving_window_function and Γ2_moving_window_function return
exactly 0.0, never NaN. -/
theorem gamma_fully_undefined_window_returns_zero (n : ℕ)
    (x y u v : Grid (2 * n + 1) (2 * n + 1))
    (h1 : n < 2 * n + 1) (h2 : n < 2 * n + 1)
    (hg1 : ∀ i j, Γ1term x y u v ⟨n, h1⟩ ⟨n, h2⟩ i j = none)
    (hg2 : ∀ i j, Γ2term x y u v ⟨n, h1⟩ ⟨n, h2⟩ i j = none) :
    Γ1_moving_window_function (2 * n + 1) (2 * n + 1) x y u v n = some 0
      ∧ Γ2_moving_window_function (2 * n + 1) (2 * n + 1) x y u v n
          = some 0 := by
  constructor
  · unfold Γ1_moving_window_function
    rw [dif_pos ⟨h1, h2⟩, nanmean, if_pos (definedVals_eq_nil hg1)]
    rfl
  · unfold Γ2_moving_window_function
    rw [dif_pos ⟨h1, h2⟩, nanmean, if_pos (definedVals_eq_nil hg2)]
    rfl

/-- Claim C4 counterexample: with the malformed parameter n = 0 (the spec
requires n >= 1) and 1 x 1 all-zero grids, both reduction functions complete
normally and return the scalar 0.0 — no error of any kind is raised before
or during the per-cell arithmetic, contradicting the claimed fail-fast
validation. -/
theorem gamma_no_validation_counterexample :
    Γ1_moving_window_function 1 1 Z0 Z0 Z0 Z0 0 = some 0
      ∧ Γ2_moving_window_function 1 1 Z0 Z0 Z0 Z0 0 = some 0 := by
  have hterm1 : ∀ i j, Γ1term Z0 Z0 Z0 Z0 (⟨0, by omega⟩ : Fin 1)
      (⟨0, by omega⟩ : Fin 1) i j = none := by
    intro i j
    rw [Γ1term]
    rw [cellTerm_eq_sinθ_cell]
    exact sinθ_cell_stalled _ _ _ _
  have hterm2 : ∀ i j, Γ2term Z0 Z0 Z0 Z0 (⟨0, by omega⟩ : Fin 1)
      (⟨0, by omega⟩ : Fin 1) i j = none := by
    intro i j
    rw [Γ2term]
    rw [cellTerm_eq_sinθ_cell]
    exact sinθ_cell_center _ _ _ _
  constructor
  · unfold Γ1_moving_window_function
    rw [dif_pos (by omega : (0:ℕ) < 1 ∧ (0:ℕ) < 1), nanmean,
      if_pos (definedVals_eq_nil hterm1)]
    rfl
  · unfold Γ2_moving_window_function
    rw [dif_pos (by omega : (0:ℕ) < 1 ∧ (0:ℕ) < 1), nanmean,
      if_pos (definedVals_eq_nil hterm2)]
    rfl

/-- Claim C5: with the center index in range, a zero denominator in the
per-cell ratio never aborts the computation: both functions complete
normally and return a scalar; the center cell (where |PM| = 0) always
yields an undefined (NaN) entry, a cell with u = v = 0 (|U| = 0 in Γ1)
yields an undefined entry, a cell with uDif = vDif = 0 (|UDif| = 0 in Γ2)
yields an undefined entry, and the returned scalar is the NaN-filtering
nanmean of the per-cell array, which excludes those entries. -/
theorem gamma_division_by_zero_is_silent (r c : ℕ) (x y u v : Grid r c)
    (n : ℕ) (h1 : n < r) (h2 : n < c) :
    Γ1_moving_window_function r c x y u v n
        = some ((nanmean (Γ1term x y u v ⟨n, h1⟩ ⟨n, h2⟩)).getD 0)
      ∧ Γ2_moving_window_function r c x y u v n
        = some ((nanmean (Γ2term x y u v ⟨n, h1⟩ ⟨n, h2⟩)).getD 0)
      ∧ Γ1term x y u v ⟨n, h1⟩ ⟨n, h2⟩ ⟨n, h1⟩ ⟨n, h2⟩ = none
      ∧ Γ2term x y u v ⟨n, h1⟩ ⟨n, h2⟩ ⟨n, h1⟩ ⟨n, h2⟩ = none
      ∧ (∀ i j, u i j = some 0 → v i j = some 0 →
          Γ1term x y u v ⟨n, h1⟩ ⟨n, h2⟩ i j = none)
      ∧ (∀ i j, nsub (u i j) (nanmean u) = some 0 →
          nsub (v i j) (nanmean v) = some 0 →
          Γ2term x y u v ⟨n, h1⟩ ⟨n, h2⟩ i j = none) := by
  refine ⟨?_, ?_, ?_, ?_, ?_, ?_⟩
  · unfold Γ1_moving_window_function
    rw [dif_pos ⟨h1, h2⟩]
  · unfold Γ2_moving_window_function
    rw [dif_pos ⟨h1, h2⟩]
  · rw [Γ1term, cellTerm_eq_sinθ_cell]
    exact sinθ_cell_center _ _ _ _
  · rw [Γ2term, cellTerm_eq_sinθ_cell]
    exact sinθ_cell_center _ _ _ _
  · intro i j hu hv
    rw [Γ1term, cellTerm_eq_sinθ_cell, hu, hv]
    exact sinθ_cell_stalled _ _ _ _
  · intro i j hu hv
    rw [Γ2term, cellTerm_eq_sinθ_cell, hu, hv]
    exact sinθ_cell_stalled _ _ _ _

/-- Cauchy-Schwarz in the plane: the cross product of two vectors is bounded
by the product of their magnitudes. -/
theorem cross_le_mul_norms (a b e f : ℝ) :
    |a * f - b * e| ≤ Real.sqrt (a ^ 2 + b ^ 2) * Real.sqrt (e ^ 2 + f ^ 2) := by
  calc |a * f - b * e| = Real.sqrt ((a * f - b * e) ^ 2) :=
        (Real.sqrt_sq_eq_abs _).symm
    _ ≤ Real.sqrt ((a ^ 2 + b ^ 2) * (e ^ 2 + f ^ 2)) :=
        Real.sqrt_le_sqrt (by nlinarith [sq_nonneg (a * e + b * f)])
    _ = Real.sqrt (a ^ 2 + b ^ 2) * Real.sqrt (e ^ 2 + f ^ 2) :=
        Real.sqrt_mul (by positivity) _

/-- Every defined spec-side cell value is a genuine sine: it lies in
[-1, 1]. -/
theorem sinθ_cell_mem_Icc {xp yp xm ym um vm : NVal} {s : ℝ}
    (h : sinθ_cell xp yp xm ym um vm = some s) : |s| ≤ 1 := by
  rcases xp with _ | a <;> rcases yp with _ | b <;> rcases xm with _ | p <;>
    rcases ym with _ | q <;> rcases um with _ | e <;> rcases vm with _ | f <;>
    try exact Option.noConfusion h
  simp only [sinθ_cell] at h
  by_cases hz : Real.sqrt ((p - a) ^ 2 + (q - b) ^ 2) = 0 ∨
      Real.sqrt (e ^ 2 + f ^ 2) = 0
  · rw [if_pos hz] at h
    exact absurd h (by simp)
  · rw [if_neg hz] at h
    rcases not_or.1 hz with ⟨hA, hB⟩
    have hApos : 0 < Real.sqrt ((p - a) ^ 2 + (q - b) ^ 2) :=
      lt_of_le_of_ne (Real.sqrt_nonneg _) (Ne.symm hA)
    have hBpos : 0 < Real.sqrt (e ^ 2 + f ^ 2) :=
      lt_of_le_of_ne (Real.sqrt_nonneg _) (Ne.symm hB)
    have hden : 0 < Real.sqrt ((p - a) ^ 2 + (q - b) ^ 2)
        * Real.sqrt (e ^ 2 + f ^ 2) := mul_pos hApos hBpos
    have hs : s = ((p - a) * f - (q - b) * e) /
        (Real.sqrt ((p - a) ^ 2 + (q - b) ^ 2) * Real.sqrt (e ^ 2 + f ^ 2)) :=
      (Option.some.inj h).symm
    rw [hs, abs_div, abs_of_pos hden, div_le_one hden]
    exact cross_le_mul_norms (p - a) (q - b) e f

/-- A list of values all bounded by 1 in absolute value has its sum bounded
by its length. -/
theorem abs_sum_le_length {L : List ℝ} (h : ∀ t ∈ L, |t| ≤ 1) :
    |L.sum| ≤ (L.length : ℝ) := by
  induction L with
  | nil => simp
  | cons a l ih =>
    have ha : |a| ≤ 1 := h a (List.mem_cons_self a l)
    have hl : |l.sum| ≤ (l.length : ℝ) :=
      ih fun t ht => h t (List.mem_cons_of_mem a ht)
    calc |(a :: l).sum| = |a + l.sum| := by rw [List.sum_cons]
      _ ≤ |a| + |l.sum| := abs_add _ _
      _ ≤ 1 + l.length := add_le_add ha hl
      _ = ((a :: l).length : ℝ) := by
          rw [List.length_cons]
          push_cast
          ring

/-- Claim C6: whenever Γ1_moving_window_function returns a scalar, that
scalar lies in the closed interval [-1, 1]: each defined per-cell term is a
sine, the NaN-ignoring mean of such terms stays in [-1, 1], and the
fully-undefined fallback 0.0 also lies in it. -/
theorem gamma1_range_in_closed_unit_interval (r c : ℕ) (x y u v : Grid r c)
    (n : ℕ) (g : ℝ)
    (h : Γ1_moving_window_function r c x y u v n = some g) :
    -1 ≤ g ∧ g ≤ 1 := by
  unfold Γ1_moving_window_function at h
  by_cases hb : n < r ∧ n < c
  · rw [dif_pos hb] at h
    have hg : g = (nanmean (Γ1term x y u v ⟨n, hb.1⟩ ⟨n, hb.2⟩)).getD 0 :=
      (Option.some.inj h).symm
    set L := definedVals (Γ1term x y u v ⟨n, hb.1⟩ ⟨n, hb.2⟩) with hL
    by_cases hE : L = []
    · rw [nanmean, ← hL, if_pos hE] at hg
      rw [hg]
      norm_num
    · rw [nanmean, ← hL, if_neg hE] at hg
      have hbound : ∀ t ∈ L, |t| ≤ 1 := by
        intro t ht
        obtain ⟨i, j, hij⟩ := mem_definedVals.1 ht
        rw [Γ1term, cellTerm_eq_sinθ_cell] at hij
        exact sinθ_cell_mem_Icc hij
      have hlen : 0 < (L.length : ℝ) := by
        have : L ≠ [] := hE
        have : 0 < L.length := List.length_pos.2 this
        exact_mod_cast this
      have habs : |g| ≤ 1 := by
        rw [hg, Option.getD_some, abs_div, abs_of_pos hlen]
        rw [div_le_one hlen]
        calc |L.sum| ≤ (L.length : ℝ) := abs_sum_le_length hbound
          _ = 1 * (L.length : ℝ) := (one_mul _).symm
          _ ≤ (L.length : ℝ) := by rw [one_mul]
      exact abs_le.1 habs
  · rw [dif_neg hb] at h
    exact absurd h (by simp)

/-- Mapping a function over every cell maps it over the defined entries. -/
theorem definedVals_map {r c : ℕ} (g : Grid r c) (f : ℝ → ℝ) :
    definedVals (fun i j => (g i j).map f) = (definedVals g).map f := by
  unfold definedVals
  rw [List.map_flatMap]
  refine List.flatMap_congr fun i _ => ?_
  rw [List.map_filterMap]

/-- Sum of an elementwise-negated list. -/
theorem sum_map_neg (l : List ℝ) : (l.map fun t => -t).sum = -l.sum := by
  induction l with
  | nil => simp
  | cons a t ih => simp [ih]; ring

/-- Sum of a list shifted by a constant. -/
theorem sum_map_add_const (l : List ℝ) (a : ℝ) :
    (l.map fun t => t + a).sum = l.sum + l.length * a := by
  induction l with
  | nil => simp
  | cons b t ih => simp [ih]; ring

/-- The NaN-ignoring mean of an elementwise-negated grid is the negated
mean. -/
theorem nanmean_neg {r c : ℕ} (g : Grid r c) :
    nanmean (negGrid g) = (nanmean g).map fun t => -t := by
  unfold nanmean negGrid
  rw [definedVals_map]
  by_cases hE : definedVals g = []
  · simp [hE]
  · rw [if_neg (by simp [List.map_eq_nil_iff, hE]), if_neg hE]
    rw [Option.map_some', sum_map_neg, List.length_map, neg_div]

/-- The NaN-ignoring mean of a constant-shifted grid is the shifted mean. -/
theorem nanmean_addConst {r c : ℕ} (g : Grid r c) (a : ℝ) :
    nanmean (addConstGrid g a) = (nanmean g).map fun t => t + a := by
  unfold nanmean addConstGrid
  rw [definedVals_map]
  by_cases hE : definedVals g = []
  · simp [hE]
  · rw [if_neg (by simp [List.map_eq_nil_iff, hE]), if_neg hE]
    rw [Option.map_some', sum_map_add_const, List.length_map]
    have hlen : ((definedVals g).length : ℝ) ≠ 0 := by
      have : 0 < (definedVals g).length := List.length_pos.2 hE
      exact_mod_cast this.ne'
    rw [Option.some.injEq]
    field_simp
    ring

/-- The spec-side per-cell value is odd in the velocity: negating (um, vm)
negates it (and preserves definedness). -/
theorem sinθ_cell_neg (xp yp xm ym um vm : NVal) :
    sinθ_cell xp yp xm ym (um.map fun t => -t) (vm.map fun t => -t)
      = (sinθ_cell xp yp xm ym um vm).map fun t => -t := by
  rcases xp with _ | a <;> rcases yp with _ | b <;> rcases xm with _ | p <;>
    rcases ym with _ | q <;> rcases um with _ | e <;> rcases vm with _ | f <;>
    try rfl
  simp only [Option.map_some', sinθ_cell]
  have hg : (-e : ℝ) ^ 2 + (-f) ^ 2 = e ^ 2 + f ^ 2 := by ring
  rw [hg]
  by_cases hz : Real.sqrt ((p - a) ^ 2 + (q - b) ^ 2) = 0 ∨
      Real.sqrt (e ^ 2 + f ^ 2) = 0
  · rw [if_pos hz, if_pos hz, Option.map_none']
  · rw [if_neg hz, if_neg hz, Option.map_some', Option.some.injEq]
    rw [show (p - a) * -f - (q - b) * -e = -((p - a) * f - (q - b) * e) by ring,
      neg_div]

/-- Negating an option value and then filling NaN with 0 negates the filled
value. -/
theorem getD_map_neg (m : Option ℝ) :
    (m.map fun t => -t).getD 0 = -(m.getD 0) := by
  cases m <;> simp

/-- Claim C7: negating all velocities — (u, v) ↦ (-u, -v) at every cell,
with x, y and n fixed — negates the result of Γ1_moving_window_function and
of Γ2_moving_window_function (including the crash case, where both sides
fail identically, and the fully-undefined case, where -0.0 = 0.0). -/
theorem gamma_sign_flips_with_velocity (r c : ℕ) (x y u v : Grid r c)
    (n : ℕ) :
    Γ1_moving_window_function r c x y (negGrid u) (negGrid v) n
        = (Γ1_moving_window_function r c x y u v n).map (fun t => -t)
      ∧ Γ2_moving_window_function r c x y (negGrid u) (negGrid v) n
        = (Γ2_moving_window_function r c x y u v n).map (fun t => -t) := by
  constructor
  · unfold Γ1_moving_window_function
    by_cases hb : n < r ∧ n < c
    · rw [dif_pos hb, dif_pos hb, Option.map_some']
      have hterm : Γ1term x y (negGrid u) (negGrid v) ⟨n, hb.1⟩ ⟨n, hb.2⟩
          = negGrid (Γ1term x y u v ⟨n, hb.1⟩ ⟨n, hb.2⟩) := by
        funext i j
        show cellTerm _ _ _ _ ((u i j).map fun t => -t)
            ((v i j).map fun t => -t) = _
        rw [cellTerm_eq_sinθ_cell, sinθ_cell_neg]
        show _ = (cellTerm _ _ _ _ (u i j) (v i j)).map fun t => -t
        rw [cellTerm_eq_sinθ_cell]
      rw [hterm, nanmean_neg, getD_map_neg]
    · rw [dif_neg hb, dif_neg hb, Option.map_none']
  · unfold Γ2_moving_window_function
    by_cases hb : n < r ∧ n < c
    · rw [dif_pos hb, dif_pos hb, Option.map_some']
      have hdif : ∀ (g : Grid r c) (i : Fin r) (j : Fin c),
          nsub (negGrid g i j) (nanmean (negGrid g))
            = (nsub (g i j) (nanmean g)).map fun t => -t := by
        intro g i j
        rw [nanmean_neg]
        show nsub ((g i j).map fun t => -t) _ = _
        rcases g i j with _ | a <;> rcases nanmean g with _ | m <;>
          simp [nsub]
        ring
      have hterm : Γ2term x y (negGrid u) (negGrid v) ⟨n, hb.1⟩ ⟨n, hb.2⟩
          = negGrid (Γ2term x y u v ⟨n, hb.1⟩ ⟨n, hb.2⟩) := by
        funext i j
        show cellTerm _ _ _ _ (nsub (negGrid u i j) (nanmean (negGrid u)))
            (nsub (negGrid v i j) (nanmean (negGrid v))) = _
        rw [hdif u i j, hdif v i j, cellTerm_eq_sinθ_cell, sinθ_cell_neg]
        show _ = (cellTerm _ _ _ _ (nsub (u i j) (nanmean u))
            (nsub (v i j) (nanmean v))).map fun t => -t
        rw [cellTerm_eq_sinθ_cell]
      rw [hterm, nanmean_neg, getD_map_neg]
    · rw [dif_neg hb, dif_neg hb, Option.map_none']

/-- Code-side fluctuation is invariant under a constant velocity shift. -/
theorem nsub_nanmean_addConst {r c : ℕ} (g : Grid r c) (a : ℝ) (i : Fin r)
    (j : Fin c) :
    nsub (addConstGrid g a i j) (nanmean (addConstGrid g a))
      = nsub (g i j) (nanmean g) := by
  rw [nanmean_addConst]
  show nsub ((g i j).map fun t => t + a) _ = _
  rcases g i j with _ | p <;> rcases nanmean g with _ | m <;>
    simp [nsub]

/-- Claim C9 (Galilean invariance of Γ2): adding any constant velocity
(a, b) to the whole window — NaN cells staying NaN — leaves the returned Γ2
scalar unchanged, because the window-mean convective velocity shifts by
exactly (a, b) and the fluctuations are unchanged. -/
theorem gamma2_galilean_invariant (r c : ℕ) (x y u v : Grid r c) (n : ℕ)
    (a b : ℝ) :
    Γ2_moving_window_function r c x y (addConstGrid u a) (addConstGrid v b) n
      = Γ2_moving_window_function r c x y u v n := by
  unfold Γ2_moving_window_function
  by_cases hb : n < r ∧ n < c
  · rw [dif_pos hb, dif_pos hb]
    have hterm : Γ2term x y (addConstGrid u a) (addConstGrid v b)
        ⟨n, hb.1⟩ ⟨n, hb.2⟩ = Γ2term x y u v ⟨n, hb.1⟩ ⟨n, hb.2⟩ := by
      funext i j
      show cellTerm _ _ _ _
          (nsub (addConstGrid u a i j) (nanmean (addConstGrid u a)))
          (nsub (addConstGrid v b i j) (nanmean (addConstGrid v b))) = _
      rw [nsub_nanmean_addConst u a i j, nsub_nanmean_addConst v b i j]
      rfl
    rw [hterm]
  · rw [dif_neg hb, dif_neg hb]

/-- Claim C10: the reduction functions never check that the window has
shape (2n+1) x (2n+1) or that n >= 1; n is used only to index the center
cell. For any window whose two dimensions both exceed n the reduction
completes and returns the NaN-ignoring mean over all cells of the window,
whatever its shape, with the cell at index [n,n] (possibly off-center)
playing the role of P; when some dimension is <= n the call fails at the
center-indexing step (modelled by none) before any arithmetic. -/
theorem gamma_no_shape_validation (r c : ℕ) (x y u v : Grid r c) (n : ℕ) :
    (∀ (h1 : n < r) (h2 : n < c),
        Γ1_moving_window_function r c x y u v n
          = some (if specVals x y u v ⟨n, h1⟩ ⟨n, h2⟩ = [] then 0
              else (specVals x y u v ⟨n, h1⟩ ⟨n, h2⟩).sum
                / (specVals x y u v ⟨n, h1⟩ ⟨n, h2⟩).length)
        ∧ Γ2_moving_window_function r c x y u v n
          = some (if specVals x y (specDif u) (specDif v) ⟨n, h1⟩ ⟨n, h2⟩
                  = [] then 0
              else (specVals x y (specDif u) (specDif v) ⟨n, h1⟩ ⟨n, h2⟩).sum
                / (specVals x y (specDif u) (specDif v) ⟨n, h1⟩
                    ⟨n, h2⟩).length))
      ∧ (¬(n < r ∧ n < c) →
        Γ1_moving_window_function r c x y u v n = none
        ∧ Γ2_moving_window_function r c x y u v n = none) := by
  constructor
  · intro h1 h2
    exact ⟨Γ1_eq_specMean r c x y u v n h1 h2,
      Γ2_eq_specMean r c x y u v n h1 h2⟩
  · intro hb
    constructor
    · unfold Γ1_moving_window_function
      rw [dif_neg hb]
    · unfold Γ2_moving_window_function
      rw [dif_neg hb]

/-- Solid-body-rotation cell value: for a cell at displacement (dx, dy) from
P with velocity (-dy, dx), the spec value is exactly 1 whenever the cell is
not at P. -/
theorem sinθ_cell_rotation (dx dy : ℝ) (h : dx ^ 2 + dy ^ 2 ≠ 0) :
    sinθ_cell (some 0) (some 0) (some dx) (some dy) (some (-dy)) (some dx)
      = some 1 := by
  simp only [sinθ_cell]
  have hA : (dx - 0) ^ 2 + (dy - 0) ^ 2 = dx ^ 2 + dy ^ 2 := by ring
  have hB : (-dy) ^ 2 + dx ^ 2 = dx ^ 2 + dy ^ 2 := by ring
  rw [hA, hB]
  have hs : Real.sqrt (dx ^ 2 + dy ^ 2) ≠ 0 := by
    rw [Ne, Real.sqrt_eq_zero']
    push_neg
    exact lt_of_le_of_ne (by positivity) (Ne.symm h)
  rw [if_neg (not_or.2 ⟨hs, hs⟩), Real.mul_self_sqrt (by positivity),
    show (dx - 0) * dx - (dy - 0) * -dy = dx ^ 2 + dy ^ 2 by ring,
    div_self h]

/-- Claim C8: on the concrete 3 x 3 window with n = 1, unit-grid coordinates
centered at (0,0) and perfect counterclockwise solid-body rotation
(u = -y, v = x), Γ1_moving_window_function returns exactly 1.0: every
off-center cell contributes sinθ_M = 1, the center is excluded, and the
mean of the eight remaining ones is 1. -/
theorem gamma1_unit_rotation_equals_one :
    Γ1_moving_window_function 3 3 RX RY RU RV 1 = some 1 := by
  have h3 : (1 : ℕ) < 3 := by omega
  rw [Γ1_eq_specMean 3 3 RX RY RU RV 1 h3 h3]
  have hfin : List.finRange 3
      = [⟨0, by omega⟩, ⟨1, by omega⟩, ⟨2, by omega⟩] := by decide
  have hvals : specVals RX RY RU RV ⟨1, h3⟩ ⟨1, h3⟩
      = [1, 1, 1, 1, 1, 1, 1, 1] := by
    unfold specVals
    rw [hfin]
    norm_num [RX, RY, RU, RV, sinθ_cell, Real.sqrt_eq_zero',
      Real.mul_self_sqrt, List.filterMap_cons, List.filterMap_nil]
  rw [hvals, if_neg (by simp)]
  norm_num

/-- Claim C4 (amended): the reduction functions perform no input
validation at all: for every grids and the malformed parameter n = 0
(the spec demands n >= 1), as long as the center index is in range the
computation completes normally and returns a scalar — nothing fails fast
before the window arithmetic. -/
theorem gamma_completes_without_validation (r c : ℕ) (x y u v : Grid r c)
    (h1 : 0 < r) (h2 : 0 < c) :
    (∃ g, Γ1_moving_window_function r c x y u v 0 = some g)
      ∧ ∃ g, Γ2_moving_window_function r c x y u v 0 = some g := by
  constructor
  · refine ⟨(nanmean (Γ1term x y u v ⟨0, h1⟩ ⟨0, h2⟩)).getD 0, ?_⟩
    unfold Γ1_moving_window_function
    rw [dif_pos ⟨h1, h2⟩]
  · refine ⟨(nanmean (Γ2term x y u v ⟨0, h1⟩ ⟨0, h2⟩)).getD 0, ?_⟩
    unfold Γ2_moving_window_function
    rw [dif_pos ⟨h1, h2⟩]

/-- Witness for the amended claim C4 at a concrete input: 1 x 1 all-one
grids with the malformed n = 0. -/
theorem gamma_completes_without_validation_witness :
    ((0 : ℕ) < 1 ∧ (0 : ℕ) < 1)
      ∧ ((∃ g, Γ1_moving_window_function 1 1 Z1 Z1 Z1 Z1 0 = some g)
        ∧ ∃ g, Γ2_moving_window_function 1 1 Z1 Z1 Z1 Z1 0 = some g) :=
  ⟨⟨by omega, by omega⟩,
    gamma_completes_without_validation 1 1 Z1 Z1 Z1 Z1 (by omega) (by omega)⟩

/-- Witness for claim C1 at a concrete input: a 3 x 3 window, NaN-masked
except at the center and at one off-center cell, has exactly one defined
sinθ_M value and Γ1 returns its mean. -/
theorem gamma1_returns_nan_ignoring_mean_of_sine_witness :
    specVals Wx Wy Wu Wv ⟨1, by omega⟩ ⟨1, by omega⟩ ≠ []
      ∧ Γ1_moving_window_function 3 3 Wx Wy Wu Wv 1
        = some ((specVals Wx Wy Wu Wv ⟨1, by omega⟩ ⟨1, by omega⟩).sum
            / (specVals Wx Wy Wu Wv ⟨1, by omega⟩ ⟨1, by omega⟩).length) := by
  have hfin : List.finRange 3
      = [⟨0, by omega⟩, ⟨1, by omega⟩, ⟨2, by omega⟩] := by decide
  have hvals : specVals Wx Wy Wu Wv ⟨1, by omega⟩ ⟨1, by omega⟩ = [0] := by
    unfold specVals
    rw [hfin]
    norm_num [Wx, Wy, Wu, Wv, sinθ_cell, Real.sqrt_eq_zero',
      Real.mul_self_sqrt, List.filterMap_cons, List.filterMap_nil]
  have hne : specVals Wx Wy Wu Wv ⟨1, by omega⟩ ⟨1, by omega⟩ ≠ [] := by
    rw [hvals]
    simp
  exact ⟨hne,
    gamma1_returns_nan_ignoring_mean_of_sine 1 Wx Wy Wu Wv (by omega)
      (by omega) hne⟩

/-- Witness for claim C2 at a concrete input: a 3 x 3 window, NaN-masked
except at the center and at one off-center cell, whose u has window mean 1,
has exactly one defined fluctuation sinθ_M value and Γ2 returns its mean. -/
theorem gamma2_returns_nan_ignoring_mean_of_fluctuation_sine_witness :
    specVals Wx Wy (specDif W2u) (specDif Wv) ⟨1, by omega⟩ ⟨1, by omega⟩ ≠ []
      ∧ Γ2_moving_window_function 3 3 Wx Wy W2u Wv 1
        = some ((specVals Wx Wy (specDif W2u) (specDif Wv) ⟨1, by omega⟩
              ⟨1, by omega⟩).sum
            / (specVals Wx Wy (specDif W2u) (specDif Wv) ⟨1, by omega⟩
              ⟨1, by omega⟩).length) := by
  have hfin : List.finRange 3
      = [⟨0, by omega⟩, ⟨1, by omega⟩, ⟨2, by omega⟩] := by decide
  have hdu : definedVals W2u = [2, 0] := by
    unfold definedVals
    rw [hfin]
    norm_num [W2u, List.filterMap_cons, List.filterMap_nil]
  have hdv : definedVals Wv = [0, 0] := by
    unfold definedVals
    rw [hfin]
    norm_num [Wv, List.filterMap_cons, List.filterMap_nil]
  have hmu : specWindowMean W2u = some 1 := by
    rw [specWindowMean, hdu, if_neg (by simp)]
    norm_num
  have hmv : specWindowMean Wv = some 0 := by
    rw [specWindowMean, hdv, if_neg (by simp)]
    norm_num
  have hDu : specDif W2u = W2uD := by
    funext i j
    by_cases h00 : i.val = 0 ∧ j.val = 0
    · simp only [specDif, hmu, W2u, W2uD, if_pos h00]
      norm_num
    · by_cases h11 : i.val = 1 ∧ j.val = 1
      · simp only [specDif, hmu, W2u, W2uD, if_neg h00, if_pos h11]
        norm_num
      · simp only [specDif, hmu, W2u, W2uD, if_neg h00, if_neg h11]
  have hDv : specDif Wv = WvD := by
    funext i j
    by_cases h00 : i.val = 0 ∧ j.val = 0
    · simp only [specDif, hmv, Wv, WvD, if_pos h00]
      norm_num
    · by_cases h11 : i.val = 1 ∧ j.val = 1
      · simp only [specDif, hmv, Wv, WvD, if_neg h00, if_pos h11]
        norm_num
      · simp only [specDif, hmv, Wv, WvD, if_neg h00, if_neg h11]
  have hvals : specVals Wx Wy (specDif W2u) (specDif Wv) ⟨1, by omega⟩
      ⟨1, by omega⟩ = [0] := by
    rw [hDu, hDv]
    unfold specVals
    rw [hfin]
    norm_num [Wx, Wy, W2uD, WvD, sinθ_cell, Real.sqrt_eq_zero',
      Real.mul_self_sqrt, List.filterMap_cons, List.filterMap_nil]
  have hne : specVals Wx Wy (specDif W2u) (specDif Wv) ⟨1, by omega⟩
      ⟨1, by omega⟩ ≠ [] := by
    rw [hvals]
    simp
  exact ⟨hne,
    gamma2_returns_nan_ignoring_mean_of_fluctuation_sine 1 Wx Wy W2u Wv
      (by omega) (by omega) hne⟩

/-- Witness for claim C3 at a concrete input: the 1 x 1 zero window (u = v =
0 everywhere) has every per-cell value undefined and both functions return
exactly 0.0. -/
theorem gamma_fully_undefined_window_returns_zero_witness :
    (∀ i j, Γ1term Z0 Z0 Z0 Z0 (⟨0, by omega⟩ : Fin 1)
        (⟨0, by omega⟩ : Fin 1) i j = none)
      ∧ (∀ i j, Γ2term Z0 Z0 Z0 Z0 (⟨0, by omega⟩ : Fin 1)
        (⟨0, by omega⟩ : Fin 1) i j = none)
      ∧ Γ1_moving_window_function 1 1 Z0 Z0 Z0 Z0 0 = some 0
      ∧ Γ2_moving_window_function 1 1 Z0 Z0 Z0 Z0 0 = some 0 := by
  have hg1 : ∀ i j, Γ1term Z0 Z0 Z0 Z0 (⟨0, by omega⟩ : Fin 1)
      (⟨0, by omega⟩ : Fin 1) i j = none := by
    intro i j
    rw [Γ1term, cellTerm_eq_sinθ_cell]
    exact sinθ_cell_stalled _ _ _ _
  have hg2 : ∀ i j, Γ2term Z0 Z0 Z0 Z0 (⟨0, by omega⟩ : Fin 1)
      (⟨0, by omega⟩ : Fin 1) i j = none := by
    intro i j
    rw [Γ2term, cellTerm_eq_sinθ_cell]
    exact sinθ_cell_center _ _ _ _
  exact ⟨hg1, hg2,
    gamma_fully_undefined_window_returns_zero 0 Z0 Z0 Z0 Z0 (by omega)
      (by omega) hg1 hg2⟩

/-- Witness for claim C5 at a concrete input: the 1 x 1 zero window with
n = 0. -/
theorem gamma_division_by_zero_is_silent_witness :
    ((0 : ℕ) < 1 ∧ (0 : ℕ) < 1)
      ∧ (Γ1_moving_window_function 1 1 Z0 Z0 Z0 Z0 0
          = some ((nanmean (Γ1term Z0 Z0 Z0 Z0 ⟨0, by omega⟩
              ⟨0, by omega⟩)).getD 0)
        ∧ Γ2_moving_window_function 1 1 Z0 Z0 Z0 Z0 0
          = some ((nanmean (Γ2term Z0 Z0 Z0 Z0 ⟨0, by omega⟩
              ⟨0, by omega⟩)).getD 0)
        ∧ Γ1term Z0 Z0 Z0 Z0 ⟨0, by omega⟩ ⟨0, by omega⟩ ⟨0, by omega⟩
            ⟨0, by omega⟩ = none
        ∧ Γ2term Z0 Z0 Z0 Z0 ⟨0, by omega⟩ ⟨0, by omega⟩ ⟨0, by omega⟩
            ⟨0, by omega⟩ = none
        ∧ (∀ i j, Z0 i j = some 0 → Z0 i j = some 0 →
            Γ1term Z0 Z0 Z0 Z0 ⟨0, by omega⟩ ⟨0, by omega⟩ i j = none)
        ∧ (∀ i j, nsub (Z0 i j) (nanmean Z0) = some 0 →
            nsub (Z0 i j) (nanmean Z0) = some 0 →
            Γ2term Z0 Z0 Z0 Z0 ⟨0, by omega⟩ ⟨0, by omega⟩ i j = none)) :=
  ⟨⟨by omega, by omega⟩,
    gamma_division_by_zero_is_silent 1 1 Z0 Z0 Z0 Z0 0 (by omega) (by omega)⟩

/-- Witness for claim C6 at a concrete input: the 1 x 1 all-one window
returns the scalar 0, which lies in [-1, 1]. -/
theorem gamma1_range_in_closed_unit_interval_witness :
    Γ1_moving_window_function 1 1 Z1 Z1 Z1 Z1 0 = some 0
      ∧ (-1 ≤ (0 : ℝ) ∧ (0 : ℝ) ≤ 1) := by
  have hg : ∀ i j, Γ1term Z1 Z1 Z1 Z1 (⟨0, by omega⟩ : Fin 1)
      (⟨0, by omega⟩ : Fin 1) i j = none := by
    intro i j
    rw [Γ1term, cellTerm_eq_sinθ_cell]
    exact sinθ_cell_center _ _ _ _
  have h : Γ1_moving_window_function 1 1 Z1 Z1 Z1 Z1 0 = some 0 := by
    unfold Γ1_moving_window_function
    rw [dif_pos (by omega : (0 : ℕ) < 1 ∧ (0 : ℕ) < 1), nanmean,
      if_pos (definedVals_eq_nil hg)]
    rfl
  exact ⟨h,
    gamma1_range_in_closed_unit_interval 1 1 Z1 Z1 Z1 Z1 0 0 h⟩

/-- Witness for claim C10 at concrete inputs: a rectangular 2 x 3 zero grid
with n = 0 (in range for both dimensions, so the reduction completes with
the cell [0,0] playing the role of P) and with n = 5 (out of range, so both
calls fail at center indexing). -/
theorem gamma_no_shape_validation_witness :
    (Γ1_moving_window_function 2 3 G23 G23 G23 G23 0
        = some (if specVals G23 G23 G23 G23 ⟨0, by omega⟩ ⟨0, by omega⟩ = []
            then 0
          else (specVals G23 G23 G23 G23 ⟨0, by omega⟩ ⟨0, by omega⟩).sum
            / (specVals G23 G23 G23 G23 ⟨0, by omega⟩ ⟨0, by omega⟩).length)
      ∧ Γ2_moving_window_function 2 3 G23 G23 G23 G23 0
        = some (if specVals G23 G23 (specDif G23) (specDif G23) ⟨0, by omega⟩
              ⟨0, by omega⟩ = [] then 0
          else (specVals G23 G23 (specDif G23) (specDif G23) ⟨0, by omega⟩
              ⟨0, by omega⟩).sum
            / (specVals G23 G23 (specDif G23) (specDif G23) ⟨0, by omega⟩
              ⟨0, by omega⟩).length))
      ∧ (¬((5 : ℕ) < 2 ∧ (5 : ℕ) < 3)
        ∧ (Γ1_moving_window_function 2 3 G23 G23 G23 G23 5 = none
          ∧ Γ2_moving_window_function 2 3 G23 G23 G23 G23 5 = none)) :=
  ⟨(gamma_no_shape_validation 2 3 G23 G23 G23 G23 0).1 (by omega) (by omega),
    by omega,
    (gamma_no_shape_validation 2 3 G23 G23 G23 G23 5).2 (by omega)⟩

end PivPy
